import Mathlib

/-!
Shallow embedding of the event persistence layer of the TimeWise repository
(`src/lib/actions.ts`), together with the client-visible data model
(`src/lib/types.ts`) and the event-type catalogue (`src/lib/constants.ts`).

Modelling conventions:
* A JavaScript `Date` is a point on the timeline measured in milliseconds
  since the epoch; we model the time value as a rational number `ℚ` so that
  the Firestore formula `seconds*1000 + nanoseconds/1e6` is exact.  An
  invalid date (`new Date(NaN)`) is the constructor `JSDate.invalid`.
* JavaScript string-to-date parsing (`new Date(string)`) is external,
  engine-supplied behaviour; it is a parameter `parseDate : String → Option ℚ`
  of every function that uses it (`none` models an unparseable string).
* The current instant (`new Date()`) and the server write time
  (`serverTimestamp()`) are parameters `now` and `serverNow`.
* The Firestore document store is an association list from document id to
  document data.  The firebase client primitives are modelled by their
  documented semantics: `deleteDoc` removes the document when present and
  succeeds whether or not it exists; `updateDoc` merges exactly the supplied
  fields into an existing document and fails when the id is absent; a query
  is a function from the filter key to either an error or a document list.
-/

namespace TimeWise

/-- JavaScript `String.prototype.trim()`: the string with leading and
trailing whitespace removed. -/
def jsTrim (s : String) : String :=
  String.mk (((s.data.dropWhile Char.isWhitespace).reverse.dropWhile
    Char.isWhitespace).reverse)

/-- JavaScript `String.prototype.split(sep)` for a one-character
separator: splitting the empty string yields `[""]`. -/
def jsSplitAux (c : Char) : List Char → List Char → List String
  | [], acc => [String.mk acc.reverse]
  | x :: xs, acc =>
      if x = c then String.mk acc.reverse :: jsSplitAux c xs []
      else jsSplitAux c xs (x :: acc)

/-- JavaScript `s.split(c)`. -/
def jsSplit (s : String) (c : Char) : List String :=
  jsSplitAux c s.data []

/-- A JavaScript `Date`: either a valid instant (milliseconds since epoch,
exact rational) or the invalid date `new Date(NaN)`. -/
inductive JSDate where
  | valid (ms : ℚ)
  | invalid
  deriving DecidableEq, Repr

/-- `isNaN(d.getTime())` on the model. -/
def JSDate.isInvalid : JSDate → Bool
  | .valid _ => false
  | .invalid => true

/-- A value read from a stored document field, as discriminated by
`convertField` in `actions.ts`: a native Firestore `Timestamp`, a string, a
plain object that may or may not carry numeric `seconds`/`nanoseconds`
fields (`none` = the field is absent or not a number), or anything else
(null, number, boolean, undefined, ...). -/
inductive FieldValue where
  | ts (seconds nanoseconds : ℚ)
  | str (s : String)
  | obj (seconds nanoseconds : Option ℚ)
  | other
  deriving DecidableEq, Repr

/-- `Timestamp.toMillis()`: `seconds * 1000 + nanoseconds / 1e6`. -/
def tsToMillis (seconds nanoseconds : ℚ) : ℚ :=
  seconds * 1000 + nanoseconds / 1000000

/-- `Timestamp.fromMillis(ms)` / `Timestamp.fromDate(d)`: whole seconds and
the fractional remainder in nanoseconds. -/
def timestampFromMillis (ms : ℚ) : FieldValue :=
  .ts (⌊ms / 1000⌋ : ℚ) ((ms - (⌊ms / 1000⌋ : ℚ) * 1000) * 1000000)

/-- `Timestamp.fromDate(validatedData.startDate)`.  The call sites are
guarded by schema validation, so the argument is always a valid date; the
invalid branch is unreachable there. -/
def jsDateToTimestamp : JSDate → FieldValue
  | .valid ms => timestampFromMillis ms
  | .invalid => .other

/-- `convertField` from `convertTimestampsToDates` in `actions.ts`, tried in
source order: native `Timestamp`; string (parse, explicitly invalid on
failure — the function has no access to the current time at all); plain
object with numeric `seconds` and `nanoseconds` (rebuilt through the
`Timestamp` constructor, hence `toMillis`); anything else is invalid. -/
def convertField (parseDate : String → Option ℚ) : FieldValue → JSDate
  | .ts s n => .valid (tsToMillis s n)
  | .str st => (parseDate st).elim .invalid .valid
  | .obj (some s) (some n) => .valid (tsToMillis s n)
  | .obj _ _ => .invalid
  | .other => .invalid

/-- The client-visible event model (`CalendarEvent` in `types.ts`). -/
structure CalendarEvent where
  id : String
  userId : String
  title : String
  eventType : String
  additionalText : Option String
  isFullDay : Bool
  recipients : List String
  startDate : JSDate
  endDate : JSDate
  createdAt : JSDate
  updatedAt : JSDate
  deriving DecidableEq, Repr

/-- A stored event document (the persisted shape in the `events`
collection): the four date fields are raw stored values. -/
structure EventDoc where
  userId : String
  title : String
  eventType : String
  additionalText : Option String
  isFullDay : Bool
  recipients : List String
  startDate : FieldValue
  endDate : FieldValue
  createdAt : FieldValue
  updatedAt : FieldValue
  deriving DecidableEq, Repr

/-- The fallback applied to the non-critical `createdAt`/`updatedAt`
fields: `isNaN(d.getTime()) ? new Date() : d`. -/
def fallbackDate (now : ℚ) : JSDate → JSDate
  | .valid ms => .valid ms
  | .invalid => .valid now

/-- `convertTimestampsToDates(eventData, docId)` from `actions.ts`: converts
each date field; returns `null` when `startDate` or `endDate` is invalid
after conversion; substitutes the current instant for an invalid
`createdAt`/`updatedAt`. -/
def convertTimestampsToDates (parseDate : String → Option ℚ) (now : ℚ)
    (eventData : EventDoc) (docId : String) : Option CalendarEvent :=
  let startDate := convertField parseDate eventData.startDate
  let endDate := convertField parseDate eventData.endDate
  if startDate.isInvalid || endDate.isInvalid then
    none
  else
    some
      { id := docId
        userId := eventData.userId
        title := eventData.title
        eventType := eventData.eventType
        additionalText := eventData.additionalText
        isFullDay := eventData.isFullDay
        recipients := eventData.recipients
        startDate := startDate
        endDate := endDate
        createdAt := fallbackDate now (convertField parseDate eventData.createdAt)
        updatedAt := fallbackDate now (convertField parseDate eventData.updatedAt) }

/-- `EVENT_TYPES.map(et => et.value)` from `constants.ts`. -/
def eventTypeValues : List String :=
  ["sick_day", "child_sick_day", "vacation", "pto", "away",
   "leaving_early", "arriving_late", "reserve_duty"]

/-- The submission after the untyped form-decode step in
`createCalendarEvent`/`updateCalendarEvent` (`new Date(...)` on the date
strings, `=== 'true'` on the flag, `JSON.parse` on the recipients). -/
structure ParsedSubmission where
  title : String
  eventType : String
  startDate : JSDate
  endDate : JSDate
  isFullDay : Bool
  additionalText : Option String
  recipients : List String
  userId : String
  deriving DecidableEq, Repr

/-- The fields on which `eventSchemaBase` (zod) records an issue, in schema
order: `title` needs length ≥ 1; `eventType` must be in the enumeration;
`startDate`/`endDate` are `z.coerce.date()` and fail on an invalid date;
`recipients` needs at least one entry.  `isFullDay`, `additionalText` and
`userId` are always well-typed in the model.  The schema has no cross-field
rule: no comparison between `startDate` and `endDate` appears. -/
def eventFieldErrors (s : ParsedSubmission) : List String :=
  (if s.title.length ≥ 1 then [] else ["title"]) ++
  (if eventTypeValues.contains s.eventType then [] else ["eventType"]) ++
  (if s.startDate.isInvalid then ["startDate"] else []) ++
  (if s.endDate.isInvalid then ["endDate"] else []) ++
  (if s.recipients.length ≥ 1 then [] else ["recipients"])

/-- Outcome of a create/update server action: the success payload, a
validation failure carrying the error field map, or the generic catch-all
failure message. -/
inductive ActionResult where
  | success (event : CalendarEvent)
  | validationFailed (fieldErrors : List String)
  | failure (message : String)
  deriving DecidableEq, Repr

/-- `createCalendarEvent(formData)`: validate with `createEventSchema`
(a `ZodError` becomes a validation failure), then `addDoc`; the store write
either fails (generic failure) or assigns a document id, and the client
record is rebuilt from the validated input with `new Date()` for both audit
fields.  `addResult` models the `addDoc` outcome. -/
def createCalendarEvent (now : ℚ) (s : ParsedSubmission)
    (addResult : Except String String) : ActionResult :=
  if eventFieldErrors s = [] then
    match addResult with
    | .error _ => .failure "Failed to create event. Please try again."
    | .ok docId =>
        .success
          { id := docId
            userId := s.userId
            title := s.title
            eventType := s.eventType
            additionalText := s.additionalText
            isFullDay := s.isFullDay
            recipients := s.recipients
            startDate := s.startDate
            endDate := s.endDate
            createdAt := .valid now
            updatedAt := .valid now }
  else .validationFailed (eventFieldErrors s)

/-- The document produced by `updateDoc(eventRef, updatePayload)` on an
existing document: `updatePayload` is the spread of `validatedData` minus
`id` — so it carries `userId`, `title`, `eventType`, `isFullDay`,
`recipients`, the two converted date timestamps and a fresh server
`updatedAt`.  The optional `additionalText` is part of the spread only
when the submission supplied it (zod omits an absent optional key), and
`updateDoc` leaves any field the payload does not reference unchanged —
so an omitted `additionalText`, like the never-supplied `createdAt`,
keeps its stored value. -/
def applyUpdatePayload (serverNow : ℚ) (s : ParsedSubmission)
    (old : EventDoc) : EventDoc :=
  { userId := s.userId
    title := s.title
    eventType := s.eventType
    additionalText := match s.additionalText with
      | some t => some t
      | none => old.additionalText
    isFullDay := s.isFullDay
    recipients := s.recipients
    startDate := jsDateToTimestamp s.startDate
    endDate := jsDateToTimestamp s.endDate
    createdAt := old.createdAt
    updatedAt := timestampFromMillis serverNow }

/-- The document store: document id to document data. -/
abbrev EventStore := List (String × EventDoc)

/-- `updateCalendarEvent(formData)`: validate with `updateEventSchema`
(the base schema extended with a string `id`, which adds no failure case in
the model), then `updateDoc`, which merges the payload when the id exists
and throws when it is absent (caught as the generic failure).  Returns the
action result and the store after the call. -/
def updateCalendarEvent (now serverNow : ℚ) (s : ParsedSubmission)
    (id : String) (store : EventStore) : ActionResult × EventStore :=
  if eventFieldErrors s = [] then
    if store.any (fun p => p.1 = id) then
      (.success
        { id := id
          userId := s.userId
          title := s.title
          eventType := s.eventType
          additionalText := s.additionalText
          isFullDay := s.isFullDay
          recipients := s.recipients
          startDate := s.startDate
          endDate := s.endDate
          createdAt := .valid now
          updatedAt := .valid now },
       store.map (fun p => if p.1 = id then (p.1, applyUpdatePayload serverNow s p.2) else p))
    else (.failure "Failed to update event. Please try again.", store)
  else (.validationFailed (eventFieldErrors s), store)

/-- The `{success, message}` shape returned by delete and by the mailing
list action. -/
structure StatusResult where
  success : Bool
  message : String
  deriving DecidableEq, Repr

/-- `deleteCalendarEvent(eventId, userId)`: builds a reference from
`eventId` alone and calls `deleteDoc`, which removes the document when
present and succeeds whether or not it exists (Firestore deletes are
unconditional; absence is not an error).  The `userId` parameter is
accepted but never read.  Returns the result and the store after the
call. -/
def deleteCalendarEvent (store : EventStore) (eventId userId : String) :
    StatusResult × EventStore :=
  (⟨true, "Event deleted successfully!"⟩,
   store.filter (fun p => p.1 ≠ eventId))

/-- The `userId` argument of `getUserEvents` as it can actually arrive from
an untyped caller: `undefined`, some non-string value, or a string. -/
inductive UserIdArg where
  | undefined
  | nonString
  | str (s : String)
  deriving DecidableEq, Repr

/-- The guard of `getUserEvents`:
`!userId || typeof userId !== 'string' || userId.trim() === ""`
(the falsiness test on a string is subsumed by the trim test). -/
def invalidUserIdArg : UserIdArg → Bool
  | .undefined => true
  | .nonString => true
  | .str s => jsTrim s = ""

/-- `getUserEvents(userId)`: returns `[]` on a guard failure before any
store access; otherwise runs the query (`q` maps the equality-filter key to
an error or the matching `(docId, data)` list, already ordered by the
store) and keeps exactly the documents that `convertTimestampsToDates`
converts successfully.  Any query error is caught and yields `[]`. -/
def getUserEvents (parseDate : String → Option ℚ) (now : ℚ)
    (q : String → Except String (List (String × EventDoc)))
    (userId : UserIdArg) : List CalendarEvent :=
  match userId with
  | .str uid =>
      if jsTrim uid = "" then []
      else
        match q uid with
        | .error _ => []
        | .ok docs =>
            docs.filterMap (fun d => convertTimestampsToDates parseDate now d.2 d.1)
  | _ => []

/-- A mailing list (`MailingList` in `types.ts`). -/
structure MailingList where
  id : String
  name : String
  emails : List String
  deriving DecidableEq, Repr

/-- The filtering step of `saveMailingLists`:
`raw.split(',').map(e => e.trim()).filter(e => z.string().email().safeParse(e).success)`.
The zod email predicate lives in the external zod library, so it is a
parameter `isValidEmail` of the model. -/
def parseEmails (isValidEmail : String → Bool) (raw : String) : List String :=
  ((jsSplit raw ',').map jsTrim).filter isValidEmail

/-- `saveMailingLists(formData)`: when both the name and the raw email
string are non-empty (JS truthiness), filter the addresses; with at least
one survivor a new list holding exactly the survivors is appended, with
none the thrown error is caught and reported as a failure.  When either
input is empty the whole block is skipped and the action still reports
success.  `newId` models the generated list id. -/
def saveMailingLists (isValidEmail : String → Bool) (newId : String)
    (store : List MailingList) (newListName newListEmailsRaw : String) :
    StatusResult × List MailingList :=
  if newListName ≠ "" ∧ newListEmailsRaw ≠ "" then
    if parseEmails isValidEmail newListEmailsRaw ≠ [] then
      (⟨true, "Mailing list settings updated (in-memory)."⟩,
       store ++ [{ id := newId, name := newListName,
                   emails := parseEmails isValidEmail newListEmailsRaw }])
    else
      (⟨false, "Invalid email format in new list. All provided emails were invalid."⟩,
       store)
  else
    (⟨true, "Mailing list settings updated (in-memory)."⟩, store)

/-! Concrete sample data used by counterexamples and witnesses. -/

/-- A well-formed stored event document owned by user `u1`. -/
def sampleDoc : EventDoc :=
  { userId := "u1"
    title := "Trip"
    eventType := "vacation"
    additionalText := none
    isFullDay := true
    recipients := ["managers"]
    startDate := .ts 1719792000 0
    endDate := .ts 1720137600 0
    createdAt := .ts 1719700000 0
    updatedAt := .ts 1719700000 0 }

/-- A submission that passes every per-field check but whose parsed end
date (0 ms) is strictly before its start date (1000 ms). -/
def badOrderSub : ParsedSubmission :=
  { title := "Trip"
    eventType := "vacation"
    startDate := .valid 1000
    endDate := .valid 0
    isFullDay := true
    additionalText := none
    recipients := ["managers"]
    userId := "u1" }

/-- A valid update submission whose payload carries a `userId` different
from the stored owner. -/
def attackSub : ParsedSubmission :=
  { title := "Trip"
    eventType := "vacation"
    startDate := .valid 0
    endDate := .valid 1000
    isFullDay := true
    additionalText := none
    recipients := ["managers"]
    userId := "attacker" }

/-- A concrete stand-in for the external email-validity predicate, used
only to instantiate parametric theorems on concrete inputs. -/
def containsAt (s : String) : Bool := s.data.any (fun c => c = '@')

/-- A string-to-date parser that fails on every input. -/
def noParse : String → Option ℚ := fun _ => none

/-- A stored document whose `startDate` is of an unconvertible shape. -/
def badStartDoc : EventDoc :=
  { sampleDoc with startDate := .other }

/-- A stored document with valid event dates but unconvertible audit
dates. -/
def badAuditDoc : EventDoc :=
  { sampleDoc with createdAt := .other, updatedAt := .str "garbage" }

/-- A stored document that carries additional text, to exercise the merge
behaviour of an update payload that omits the optional field. -/
def notedDoc : EventDoc :=
  { sampleDoc with additionalText := some "note" }

/-! Theorems settling the claims. -/

/-- C3: `convertField` tries exactly these cases, first match wins: a
native store `Timestamp` converts directly; a string is date-parsed and
yields the explicit invalid date when the parse fails (the function never
consults the current time); an object with numeric `seconds` and
`nanoseconds` is reconstructed as `seconds*1000 + nanoseconds/1e6`
milliseconds since epoch; any other value is invalid. -/
theorem convertField_cases (parseDate : String → Option ℚ)
    (s n ms : ℚ) (st : String) (o : Option ℚ) :
    convertField parseDate (.ts s n) = .valid (s * 1000 + n / 1000000)
    ∧ convertField parseDate (.str st) = (parseDate st).elim .invalid .valid
    ∧ convertField (fun _ => none) (.str st) = .invalid
    ∧ convertField (fun _ => some ms) (.str st) = .valid ms
    ∧ convertField parseDate (.obj (some s) (some n))
        = .valid (s * 1000 + n / 1000000)
    ∧ convertField parseDate (.obj none o) = .invalid
    ∧ convertField parseDate (.obj o none) = .invalid
    ∧ convertField parseDate .other = .invalid := by
  refine ⟨rfl, rfl, rfl, rfl, rfl, ?_, ?_, rfl⟩ <;> cases o <;> rfl

/-- C5: `getUserEvents` fails closed: whenever the store query errors (for
any reason), the result is the empty list for every argument; the function
is total in the model, so no error propagates to the caller. -/
theorem getUserEvents_query_error_empty (parseDate : String → Option ℚ)
    (now : ℚ) (msg : String) (arg : UserIdArg) :
    getUserEvents parseDate now (fun _ => .error msg) arg = [] := by
  cases arg with
  | undefined => rfl
  | nonString => rfl
  | str uid => by_cases h : jsTrim uid = "" <;> simp [getUserEvents, h]

/-- C6: on an invalid `userId` argument (undefined, not a string, or a
string that trims to empty), `getUserEvents` returns the empty list for
every possible store query — the quantification over `q` expresses that no
query is attempted. -/
theorem getUserEvents_invalid_userId_no_query (parseDate : String → Option ℚ)
    (now : ℚ) (arg : UserIdArg) (h : invalidUserIdArg arg = true) :
    ∀ q, getUserEvents parseDate now q arg = [] := by
  intro q
  cases arg with
  | undefined => rfl
  | nonString => rfl
  | str uid =>
      simp only [invalidUserIdArg, decide_eq_true_eq] at h
      simp [getUserEvents, h]

/-- Witness for C6 at a whitespace-only string and a store that does hold
documents. -/
theorem getUserEvents_invalid_userId_no_query_witness :
    invalidUserIdArg (.str "   ") = true
    ∧ getUserEvents noParse 0 (fun _ => .ok [("e1", sampleDoc)]) (.str "   ") = [] :=
  ⟨by decide,
   getUserEvents_invalid_userId_no_query noParse 0 (.str "   ") (by decide)
     (fun _ => .ok [("e1", sampleDoc)])⟩

/-- C10: the result and the store mutation of `deleteCalendarEvent` are
identical for any two `userId` arguments — the parameter is never read. -/
theorem deleteCalendarEvent_independent_of_userId (store : EventStore)
    (eventId u1 u2 : String) :
    deleteCalendarEvent store eventId u1 = deleteCalendarEvent store eventId u2 :=
  rfl

/-- Counterexample to C7: deleting `e1` twice from a store that held it
once yields a success result both times — the second call reports success,
not a not-found failure. -/
theorem delete_twice_second_also_succeeds :
    deleteCalendarEvent [("e1", sampleDoc)] "e1" "u1"
      = (⟨true, "Event deleted successfully!"⟩, [])
    ∧ deleteCalendarEvent [] "e1" "u1"
      = (⟨true, "Event deleted successfully!"⟩, []) := by
  constructor <;> simp [deleteCalendarEvent, sampleDoc]

/-- C7 as amended: two successive deletes of the same id both report
success, the id is gone afterwards, and neither call crashes (totality);
the store delete is unconditional, so absence is never surfaced. -/
theorem delete_twice_both_succeed (store : EventStore) (eventId userId : String) :
    (deleteCalendarEvent store eventId userId).1.success = true
    ∧ ((deleteCalendarEvent
          (deleteCalendarEvent store eventId userId).2 eventId userId).1.success
        = true) :=
  ⟨rfl, rfl⟩

/-- C4: a stored record whose `startDate` or `endDate` fails timestamp
normalization converts to `none` and is excluded from `getUserEvents`,
and removing it changes nothing for the remaining records: the output over
a store containing it equals the output over the same store without it. -/
theorem invalid_dates_excluded_others_kept (parseDate : String → Option ℚ)
    (now : ℚ) (d : EventDoc) (docId : String)
    (pre post : List (String × EventDoc)) (uid : String)
    (h1 : jsTrim uid ≠ "")
    (h2 : convertField parseDate d.startDate = .invalid
          ∨ convertField parseDate d.endDate = .invalid) :
    convertTimestampsToDates parseDate now d docId = none
    ∧ getUserEvents parseDate now (fun _ => .ok (pre ++ (docId, d) :: post)) (.str uid)
      = getUserEvents parseDate now (fun _ => .ok (pre ++ post)) (.str uid) := by
  have hnone : convertTimestampsToDates parseDate now d docId = none := by
    unfold convertTimestampsToDates
    rcases h2 with h | h <;> simp [h, JSDate.isInvalid]
  refine ⟨hnone, ?_⟩
  simp [getUserEvents, h1, List.filterMap_append, hnone]

/-- Witness for C4: with an unparseable parser and a record whose stored
`startDate` has an unconvertible shape, the record is dropped while the
other record of the same user still appears. -/
theorem invalid_dates_excluded_others_kept_witness :
    convertTimestampsToDates noParse 0 badStartDoc "b1" = none
    ∧ getUserEvents noParse 0
        (fun _ => .ok ([("g1", sampleDoc)] ++ ("b1", badStartDoc) :: []))
        (.str "u1")
      = getUserEvents noParse 0 (fun _ => .ok ([("g1", sampleDoc)] ++ []))
          (.str "u1") :=
  invalid_dates_excluded_others_kept noParse 0 badStartDoc "b1"
    [("g1", sampleDoc)] [] "u1" (by decide) (.inl rfl)

/-- C9: when both event dates normalize successfully, an invalid
`createdAt` or `updatedAt` is non-fatal: the record still converts (and is
still returned by `getUserEvents`), with the current instant substituted
for whichever audit field failed normalization. -/
theorem invalid_audit_dates_nonfatal (parseDate : String → Option ℚ)
    (now : ℚ) (d : EventDoc) (docId : String)
    (h1 : convertField parseDate d.startDate ≠ .invalid)
    (h2 : convertField parseDate d.endDate ≠ .invalid) :
    ∃ ev, convertTimestampsToDates parseDate now d docId = some ev
      ∧ (convertField parseDate d.createdAt = .invalid → ev.createdAt = .valid now)
      ∧ (convertField parseDate d.updatedAt = .invalid → ev.updatedAt = .valid now)
      ∧ ∀ uid, jsTrim uid ≠ "" →
          getUserEvents parseDate now (fun _ => .ok [(docId, d)]) (.str uid) = [ev] := by
  rcases hs : convertField parseDate d.startDate with ms | _
  case invalid => exact absurd hs h1
  rcases he : convertField parseDate d.endDate with ms' | _
  case invalid => exact absurd he h2
  have hsome : convertTimestampsToDates parseDate now d docId
      = some
        { id := docId
          userId := d.userId
          title := d.title
          eventType := d.eventType
          additionalText := d.additionalText
          isFullDay := d.isFullDay
          recipients := d.recipients
          startDate := .valid ms
          endDate := .valid ms'
          createdAt := fallbackDate now (convertField parseDate d.createdAt)
          updatedAt := fallbackDate now (convertField parseDate d.updatedAt) } := by
    unfold convertTimestampsToDates
    simp [hs, he, JSDate.isInvalid]
  refine ⟨_, hsome, ?_, ?_, ?_⟩
  · intro hc; simp [hc, fallbackDate]
  · intro hu; simp [hu, fallbackDate]
  · intro uid huid
    simp [getUserEvents, huid, hsome]

/-- Witness for C9: a record with valid event dates, an unconvertible
`createdAt` and an unparseable `updatedAt` string is still returned, with
the current instant (7) substituted for both audit fields. -/
theorem invalid_audit_dates_nonfatal_witness :
    ∃ ev, convertTimestampsToDates noParse 7 badAuditDoc "d1" = some ev
      ∧ (convertField noParse badAuditDoc.createdAt = .invalid →
          ev.createdAt = .valid 7)
      ∧ (convertField noParse badAuditDoc.updatedAt = .invalid →
          ev.updatedAt = .valid 7)
      ∧ ∀ uid, jsTrim uid ≠ "" →
          getUserEvents noParse 7 (fun _ => .ok [("d1", badAuditDoc)]) (.str uid)
            = [ev] :=
  invalid_audit_dates_nonfatal noParse 7 badAuditDoc "d1" (by decide) (by decide)

/-- Counterexample to C1: a submission whose parsed end date (0 ms) is
strictly before its start date (1000 ms) passes validation in both
`createCalendarEvent` and `updateCalendarEvent`: both report success and
return the record with `endDate < startDate`, instead of a validation
failure on the `endDate` field. -/
theorem endDate_before_startDate_accepted :
    ((0 : ℚ) < 1000)
    ∧ badOrderSub.endDate = .valid 0
    ∧ badOrderSub.startDate = .valid 1000
    ∧ createCalendarEvent 5000 badOrderSub (.ok "e1")
        = .success
          { id := "e1", userId := "u1", title := "Trip", eventType := "vacation",
            additionalText := none, isFullDay := true, recipients := ["managers"],
            startDate := .valid 1000, endDate := .valid 0,
            createdAt := .valid 5000, updatedAt := .valid 5000 }
    ∧ (updateCalendarEvent 5000 6000 badOrderSub "e1" [("e1", sampleDoc)]).1
        = .success
          { id := "e1", userId := "u1", title := "Trip", eventType := "vacation",
            additionalText := none, isFullDay := true, recipients := ["managers"],
            startDate := .valid 1000, endDate := .valid 0,
            createdAt := .valid 5000, updatedAt := .valid 5000 } := by
  refine ⟨by norm_num, rfl, rfl, ?_, ?_⟩ <;> decide

/-- C1 as amended: the create and update actions perform only per-field
validation — no comparison between `startDate` and `endDate` exists — so
every submission passing the per-field checks is accepted regardless of
the order of its two dates, and the returned record carries the submitted
`startDate` and `endDate` unchanged (an error is attached to `endDate`
only when `endDate` itself fails to parse to a valid instant). -/
theorem create_update_accept_any_date_order (now serverNow : ℚ)
    (s : ParsedSubmission) (addId id : String) (old : EventDoc)
    (h : eventFieldErrors s = []) :
    createCalendarEvent now s (.ok addId)
      = .success
        { id := addId, userId := s.userId, title := s.title,
          eventType := s.eventType, additionalText := s.additionalText,
          isFullDay := s.isFullDay, recipients := s.recipients,
          startDate := s.startDate, endDate := s.endDate,
          createdAt := .valid now, updatedAt := .valid now }
    ∧ (updateCalendarEvent now serverNow s id [(id, old)]).1
      = .success
        { id := id, userId := s.userId, title := s.title,
          eventType := s.eventType, additionalText := s.additionalText,
          isFullDay := s.isFullDay, recipients := s.recipients,
          startDate := s.startDate, endDate := s.endDate,
          createdAt := .valid now, updatedAt := .valid now } := by
  constructor
  · simp [createCalendarEvent, h]
  · simp [updateCalendarEvent, h]

/-- Witness for the amended C1 at the out-of-order submission: it is
accepted by both actions. -/
theorem create_update_accept_any_date_order_witness :
    createCalendarEvent 5000 badOrderSub (.ok "e1")
      = .success
        { id := "e1", userId := badOrderSub.userId, title := badOrderSub.title,
          eventType := badOrderSub.eventType,
          additionalText := badOrderSub.additionalText,
          isFullDay := badOrderSub.isFullDay, recipients := badOrderSub.recipients,
          startDate := badOrderSub.startDate, endDate := badOrderSub.endDate,
          createdAt := .valid 5000, updatedAt := .valid 5000 }
    ∧ (updateCalendarEvent 5000 6000 badOrderSub "e1" [("e1", sampleDoc)]).1
      = .success
        { id := "e1", userId := badOrderSub.userId, title := badOrderSub.title,
          eventType := badOrderSub.eventType,
          additionalText := badOrderSub.additionalText,
          isFullDay := badOrderSub.isFullDay, recipients := badOrderSub.recipients,
          startDate := badOrderSub.startDate, endDate := badOrderSub.endDate,
          createdAt := .valid 5000, updatedAt := .valid 5000 } :=
  create_update_accept_any_date_order 5000 6000 badOrderSub "e1" "e1" sampleDoc
    (by decide)

/-- Counterexample to C2: the update payload spreads the validated data,
which contains `userId`, so a payload carrying a different `userId`
overwrites the stored owner: the document owned by `u1` is owned by
`attacker` after the update. -/
theorem update_overwrites_userId :
    sampleDoc.userId = "u1"
    ∧ attackSub.userId = "attacker"
    ∧ (updateCalendarEvent 5000 6000 attackSub "e1" [("e1", sampleDoc)]).1
        = .success
          { id := "e1", userId := "attacker", title := "Trip",
            eventType := "vacation", additionalText := none, isFullDay := true,
            recipients := ["managers"], startDate := .valid 0,
            endDate := .valid 1000, createdAt := .valid 5000,
            updatedAt := .valid 5000 }
    ∧ (((updateCalendarEvent 5000 6000 attackSub "e1" [("e1", sampleDoc)]).2.lookup
          "e1").map EventDoc.userId = some "attacker") := by
  refine ⟨rfl, rfl, ?_, ?_⟩ <;> decide

/-- C2 as amended: on a validated payload and an existing document, the
update leaves `createdAt` unchanged (it is never part of the update
payload) and refreshes `updatedAt` to the server write time, while every
mutable field — including `userId`, which the payload does carry — is
replaced by the submitted value; the optional `additionalText` is
replaced only when the submission supplied it and is otherwise left at
its stored value. -/
theorem update_preserves_createdAt_replaces_mutables (now serverNow : ℚ)
    (s : ParsedSubmission) (id : String) (old : EventDoc)
    (h : eventFieldErrors s = []) :
    (updateCalendarEvent now serverNow s id [(id, old)]).2
      = [(id, applyUpdatePayload serverNow s old)]
    ∧ (applyUpdatePayload serverNow s old).createdAt = old.createdAt
    ∧ (applyUpdatePayload serverNow s old).updatedAt = timestampFromMillis serverNow
    ∧ (applyUpdatePayload serverNow s old).userId = s.userId
    ∧ (applyUpdatePayload serverNow s old).title = s.title
    ∧ (applyUpdatePayload serverNow s old).eventType = s.eventType
    ∧ (s.additionalText = none →
        (applyUpdatePayload serverNow s old).additionalText = old.additionalText)
    ∧ (∀ t, s.additionalText = some t →
        (applyUpdatePayload serverNow s old).additionalText = some t)
    ∧ (applyUpdatePayload serverNow s old).isFullDay = s.isFullDay
    ∧ (applyUpdatePayload serverNow s old).recipients = s.recipients
    ∧ (applyUpdatePayload serverNow s old).startDate = jsDateToTimestamp s.startDate
    ∧ (applyUpdatePayload serverNow s old).endDate = jsDateToTimestamp s.endDate := by
  refine ⟨?_, rfl, rfl, rfl, rfl, rfl, ?_, ?_, rfl, rfl, rfl, rfl⟩
  · simp [updateCalendarEvent, h]
  · intro ha
    simp [applyUpdatePayload, ha]
  · intro t ha
    simp [applyUpdatePayload, ha]

/-- Witness for the amended C2 at a concrete store and payload: the
payload omits `additionalText`, so the stored text is preserved while the
stored owner is replaced. -/
theorem update_preserves_createdAt_replaces_mutables_witness :
    (updateCalendarEvent 5000 6000 attackSub "e1" [("e1", notedDoc)]).2
      = [("e1", applyUpdatePayload 6000 attackSub notedDoc)]
    ∧ (applyUpdatePayload 6000 attackSub notedDoc).createdAt = notedDoc.createdAt
    ∧ (applyUpdatePayload 6000 attackSub notedDoc).updatedAt
        = timestampFromMillis 6000
    ∧ (applyUpdatePayload 6000 attackSub notedDoc).userId = attackSub.userId
    ∧ (applyUpdatePayload 6000 attackSub notedDoc).title = attackSub.title
    ∧ (applyUpdatePayload 6000 attackSub notedDoc).eventType = attackSub.eventType
    ∧ (attackSub.additionalText = none →
        (applyUpdatePayload 6000 attackSub notedDoc).additionalText
          = notedDoc.additionalText)
    ∧ (∀ t, attackSub.additionalText = some t →
        (applyUpdatePayload 6000 attackSub notedDoc).additionalText = some t)
    ∧ (applyUpdatePayload 6000 attackSub notedDoc).isFullDay = attackSub.isFullDay
    ∧ (applyUpdatePayload 6000 attackSub notedDoc).recipients
        = attackSub.recipients
    ∧ (applyUpdatePayload 6000 attackSub notedDoc).startDate
        = jsDateToTimestamp attackSub.startDate
    ∧ (applyUpdatePayload 6000 attackSub notedDoc).endDate
        = jsDateToTimestamp attackSub.endDate :=
  update_preserves_createdAt_replaces_mutables 5000 6000 attackSub "e1" notedDoc
    (by decide)

/-- Counterexample to C8: with a non-empty name and an empty raw email
string, zero addresses survive filtering and yet the action reports
success (the add block is skipped entirely), contradicting "fails exactly
when zero addresses survive". -/
theorem saveMailingLists_zero_survivors_success :
    parseEmails containsAt "" = []
    ∧ saveMailingLists containsAt "ml1" [] "Team X" ""
        = (⟨true, "Mailing list settings updated (in-memory)."⟩, []) := by
  constructor <;> decide

/-- C8 as amended: when both the name and the raw email string are
non-empty, the action fails exactly when zero addresses survive the
validity filter, and with at least one survivor it appends a list whose
emails are exactly the surviving addresses (split on commas, trimmed,
filtered) in their original order; when either input is empty the action
reports success without storing anything. -/
theorem saveMailingLists_filter_spec (isValidEmail : String → Bool)
    (newId : String) (store : List MailingList) (name raw : String)
    (h1 : name ≠ "") (h2 : raw ≠ "") :
    (parseEmails isValidEmail raw = [] →
        saveMailingLists isValidEmail newId store name raw
          = (⟨false,
              "Invalid email format in new list. All provided emails were invalid."⟩,
             store))
    ∧ (parseEmails isValidEmail raw ≠ [] →
        saveMailingLists isValidEmail newId store name raw
          = (⟨true, "Mailing list settings updated (in-memory)."⟩,
             store ++ [{ id := newId, name := name,
                         emails := parseEmails isValidEmail raw }]))
    ∧ parseEmails isValidEmail raw
        = ((jsSplit raw ',').map jsTrim).filter isValidEmail := by
  refine ⟨?_, ?_, rfl⟩
  · intro hz
    unfold saveMailingLists
    rw [if_pos ⟨h1, h2⟩, if_neg (by simp [hz])]
  · intro hnz
    unfold saveMailingLists
    rw [if_pos ⟨h1, h2⟩, if_pos hnz]

/-- Witness for the amended C8 at the spec's positive example: the invalid
entry is dropped and exactly the two valid addresses are stored, in
order. -/
theorem saveMailingLists_filter_spec_witness :
    parseEmails containsAt "a@x.com, bad, b@x.com" = ["a@x.com", "b@x.com"]
    ∧ saveMailingLists containsAt "ml1" [] "Team X" "a@x.com, bad, b@x.com"
        = (⟨true, "Mailing list settings updated (in-memory)."⟩,
           [{ id := "ml1", name := "Team X", emails := ["a@x.com", "b@x.com"] }]) := by
  have hp : parseEmails containsAt "a@x.com, bad, b@x.com"
      = ["a@x.com", "b@x.com"] := by decide
  have h := (saveMailingLists_filter_spec containsAt "ml1" [] "Team X"
    "a@x.com, bad, b@x.com" (by decide) (by decide)).2.1 (by simp [hp])
  rw [hp] at h
  exact ⟨hp, by simpa using h⟩

end TimeWise
